import Mathlib

/-!
Verification development for the ADF (augmented Dickey-Fuller) MCP server.

The embedding follows the repository's source:
  * `adf_mcp/adf_core.py` — `ADFTester.test_stationarity`, `get_interpretation`;
  * `adf_mcp_server.py` — the synchronous tools `adf_test`, `adf_batch_test`,
    `adf_interpret`, the submission endpoint `adf_analyze_file`, the task
    registry primitives and the background worker `_analyze_file_worker`.

External collaborators (the `statsmodels.adfuller` routine, file loading and
decimal report formatting) are modelled as abstract function parameters, as the
specification prescribes.  Machine floats that may be NaN are modelled as
`Option ℚ` (`none` = NaN); all arithmetic the code performs on them is exact.
-/

/-- A Python float that may be NaN: `none` models NaN, `some q` a numeric value. -/
abbrev FVal := Option ℚ

/-- The NaN-removal step `data = data[~np.isnan(data)]` used by both
`ADFTester.test_stationarity` and `_analyze_file_worker`. -/
def dropNaN (xs : List FVal) : List ℚ := xs.filterMap id

/-- One invocation of the external `adfuller` collaborator, recording the
arguments actually passed: `adfuller(data, regression=..., maxlag=..., autolag=...)`. -/
structure AdfCall where
  data : List ℚ
  regression : String
  maxlag : ℤ
  autolag : String
deriving Repr, DecidableEq

/-- The tuple the external `adfuller` collaborator returns: statistic, p-value,
lags used and the critical values at the 1%/5%/10% levels (`result[0]`,
`result[1]`, `result[2]`, `result[4]`). -/
structure AdfullerOut where
  statistic : ℚ
  p_value : ℚ
  lags_used : ℤ
  crit1 : ℚ
  crit5 : ℚ
  crit10 : ℚ
deriving Repr, DecidableEq

/-- The dictionary `ADFTester.regression_types` from `adf_core.py`. -/
def regression_types : List (String × String) :=
  [("n", "无常数项"), ("c", "有常数项"), ("ct", "有常数项和趋势项")]

/-- The dictionary `ADFTester.lags_methods` from `adf_core.py`. -/
def lags_methods : List (String × String) :=
  [("aic", "Akaike信息准则"), ("bic", "Bayesian信息准则"), ("t-stat", "t统计量")]

/-- The `result_dict` built by `ADFTester.test_stationarity`. -/
structure ResultDict where
  statistic : ℚ
  p_value : ℚ
  crit1 : ℚ
  crit5 : ℚ
  crit10 : ℚ
  is_stationary : Bool
  lags_used : ℤ
  regression_type : String
  regression_description : String
  lags_method : String
  lags_method_description : String
  data_length : ℕ
  max_lags : ℤ
deriving Repr, DecidableEq

/-- `ADFTester.test_stationarity` from `adf_core.py`.  Raised exceptions become
`Except.error`; the second component logs every invocation of the external
`adfuller` collaborator. -/
def test_stationarity (adfuller : AdfCall → AdfullerOut)
    (data : List FVal) (regression : String) (max_lags : ℤ)
    (lags_method : String) : Except String ResultDict × List AdfCall :=
  let cleaned := dropNaN data
  if cleaned.length < 10 then
    (.error "数据长度必须至少为10个观测值", [])
  else if (regression_types.lookup regression).isNone then
    (.error "回归类型必须是 ['n', 'c', 'ct'] 之一", [])
  else if (lags_methods.lookup lags_method).isNone then
    (.error "滞后选择方法必须是 ['aic', 'bic', 't-stat'] 之一", [])
  else if max_lags < 0 then
    (.error "最大滞后阶数必须非负", [])
  else
    let ml := min max_lags ((cleaned.length : ℤ) / 2 - 1)
    let call : AdfCall := ⟨cleaned, regression, ml, lags_method⟩
    let out := adfuller call
    (.ok {
      statistic := out.statistic
      p_value := out.p_value
      crit1 := out.crit1
      crit5 := out.crit5
      crit10 := out.crit10
      is_stationary := decide (out.p_value < 1/20)
      lags_used := out.lags_used
      regression_type := regression
      regression_description := (regression_types.lookup regression).getD ""
      lags_method := lags_method
      lags_method_description := (lags_methods.lookup lags_method).getD ""
      data_length := cleaned.length
      max_lags := ml }, [call])

/-- The status/payload/error dictionary returned by the synchronous tool
`adf_test` (and by each entry of `adf_batch_test`). -/
structure TestOut where
  status : String
  result : Option ResultDict
  error : Option String
deriving Repr, DecidableEq

/-- The tool `adf_test` from `adf_mcp_server.py`.  Its outer
`try/except` turns every raised exception into a `failed` dictionary; the
second component logs the invocations of the external `adfuller` collaborator. -/
def adf_test (adfuller : AdfCall → AdfullerOut)
    (data : List FVal) (regression : String) (max_lags : ℤ)
    (lags_method : String) : TestOut × List AdfCall :=
  if data.isEmpty || data.length < 10 then
    (⟨"failed", none, some "数据长度必须至少为10个观测值"⟩, [])
  else if (regression_types.lookup regression).isNone then
    (⟨"failed", none, some "回归类型必须是 'n', 'c', 'ct' 之一"⟩, [])
  else if (lags_methods.lookup lags_method).isNone then
    (⟨"failed", none, some "滞后选择方法必须是 'aic', 'bic', 't-stat' 之一"⟩, [])
  else
    match test_stationarity adfuller data regression max_lags lags_method with
    | (.ok r, cs) => (⟨"success", some r, none⟩, cs)
    | (.error e, cs) => (⟨"failed", none, some e⟩, cs)

/-- The body of the per-series loop of `adf_batch_test`: the raw-length check,
then `test_stationarity` with its exceptions caught per entry. -/
def batch_item (adfuller : AdfCall → AdfullerOut)
    (data : List FVal) (regression : String) (max_lags : ℤ)
    (lags_method : String) : TestOut × List AdfCall :=
  if data.length < 10 then
    (⟨"failed", none, some "数据长度必须至少为10个观测值"⟩, [])
  else
    match test_stationarity adfuller data regression max_lags lags_method with
    | (.ok r, cs) => (⟨"success", some r, none⟩, cs)
    | (.error e, cs) => (⟨"failed", none, some e⟩, cs)

/-- The status/results/error dictionary returned by `adf_batch_test`. -/
structure BatchOut where
  status : String
  results : Option (List (String × TestOut))
  error : Option String
deriving Repr, DecidableEq

/-- The tool `adf_batch_test` from `adf_mcp_server.py`.  The input dictionary is
modelled as an association list in iteration order. -/
def adf_batch_test (adfuller : AdfCall → AdfullerOut)
    (data_dict : List (String × List FVal)) (regression : String)
    (max_lags : ℤ) (lags_method : String) : BatchOut × List AdfCall :=
  if data_dict.isEmpty then
    (⟨"failed", none, some "数据字典不能为空"⟩, [])
  else
    let entries := data_dict.map
      (fun p => (p.1, batch_item adfuller p.2 regression max_lags lags_method))
    (⟨"success", some (entries.map (fun p => (p.1, p.2.1))), none⟩,
      (entries.map (fun p => p.2.2)).flatten)

/-- A Python value that can appear inside the dictionaries handed to
`ADFTester.get_interpretation`. -/
inductive PyVal where
  | num (q : ℚ)
  | str (s : String)
  | boolVal (b : Bool)
  | cmap (m : List (String × ℚ))
deriving Repr, DecidableEq

/-- Python `d[k]` on a dictionary: a missing key raises `KeyError`. -/
def dictGet (d : List (String × PyVal)) (k : String) : Except String PyVal :=
  match d.lookup k with
  | some v => .ok v
  | none => .error ("KeyError: " ++ k)

/-- Applying a numeric format (`:.6f`) or comparison to a non-number raises. -/
def asNum : PyVal → Except String ℚ
  | .num q => .ok q
  | _ => .error "TypeError: not a number"

/-- Using a value as a dictionary of critical values; anything else raises. -/
def asCmap : PyVal → Except String (List (String × ℚ))
  | .cmap m => .ok m
  | _ => .error "TypeError: not a mapping"

/-- Python `m[k]` on the critical-values dictionary. -/
def cmapGet (m : List (String × ℚ)) (k : String) : Except String ℚ :=
  match m.lookup k with
  | some v => .ok v
  | none => .error ("KeyError: " ++ k)

/-- Python truthiness of the modelled values. -/
def pyTruthy : PyVal → Bool
  | .num q => decide (q ≠ 0)
  | .str s => decide (s ≠ "")
  | .boolVal b => b
  | .cmap m => !m.isEmpty

/-- Rendering of a numeric value inside the report text.  Report text
generation is an external collaborator, so the Python `:.6f` format is
abstracted by the exact rational rendering. -/
def fmt6 (q : ℚ) : String := toString q

/-- Plain `str()` rendering used by format fields without a format spec. -/
def pyStr : PyVal → String
  | .num q => toString q
  | .str s => s
  | .boolVal b => if b then "True" else "False"
  | .cmap _ => "dict"

/-- `ADFTester.get_interpretation` from `adf_core.py`, over an arbitrary
dictionary argument (the function is called both with the full
`test_stationarity` result and, by `adf_interpret`, with a four-key
dictionary).  Each `result[...]` subscript may raise `KeyError`. -/
def get_interpretation (result : List (String × PyVal)) : Except String String := do
  let statV ← dictGet result "statistic"
  let statistic ← asNum statV
  let pV ← dictGet result "p_value"
  let p_value ← asNum pV
  let isStV ← dictGet result "is_stationary"
  let cvV ← dictGet result "critical_values"
  let critical_values ← asCmap cvV
  let c1 ← cmapGet critical_values "1%"
  let c5 ← cmapGet critical_values "5%"
  let c10 ← cmapGet critical_values "10%"
  let rdV ← dictGet result "regression_description"
  let lmV ← dictGet result "lags_method_description"
  let luV ← dictGet result "lags_used"
  let dlV ← dictGet result "data_length"
  let concl := if pyTruthy isStV then "时间序列是平稳的" else "时间序列是非平稳的"
  let reject := if pyTruthy isStV then "拒绝" else "不能拒绝"
  let cmp := if p_value < 1/20 then "<" else ">"
  return "ADF检验结果解释：\n\n1. 检验统计量: " ++ fmt6 statistic
    ++ "\n2. p值: " ++ fmt6 p_value
    ++ "\n3. 临界值:\n   - 1%显著性水平: " ++ fmt6 c1
    ++ "\n   - 5%显著性水平: " ++ fmt6 c5
    ++ "\n   - 10%显著性水平: " ++ fmt6 c10
    ++ "\n\n4. 结论: " ++ concl
    ++ "\n   - 在5%显著性水平下，" ++ reject ++ "原假设（序列存在单位根）"
    ++ "\n   - p值 " ++ fmt6 p_value ++ " " ++ cmp ++ " 0.05"
    ++ "\n\n5. 技术细节:\n   - 使用的回归类型: " ++ pyStr rdV
    ++ "\n   - 滞后选择方法: " ++ pyStr lmV
    ++ "\n   - 实际使用滞后阶数: " ++ pyStr luV
    ++ "\n   - 数据长度: " ++ pyStr dlV

/-- The `result_dict` of `test_stationarity` seen as the Python dictionary the
worker hands to `get_interpretation`. -/
def resultToDict (r : ResultDict) : List (String × PyVal) :=
  [("statistic", .num r.statistic), ("p_value", .num r.p_value),
   ("critical_values", .cmap [("1%", r.crit1), ("5%", r.crit5), ("10%", r.crit10)]),
   ("is_stationary", .boolVal r.is_stationary),
   ("lags_used", .num (r.lags_used : ℚ)),
   ("regression_type", .str r.regression_type),
   ("regression_description", .str r.regression_description),
   ("lags_method", .str r.lags_method),
   ("lags_method_description", .str r.lags_method_description),
   ("data_length", .num (r.data_length : ℚ)),
   ("max_lags", .num (r.max_lags : ℚ))]

/-- The status/interpretation/error dictionary returned by `adf_interpret`. -/
structure InterpOut where
  status : String
  interpretation : Option String
  error : Option String
deriving Repr, DecidableEq

/-- The tool `adf_interpret` from `adf_mcp_server.py`: it builds a four-key
dictionary from its arguments, delegates to `get_interpretation` and catches
every raised exception. -/
def adf_interpret (statistic p_value : ℚ) (critical_values : List (String × ℚ))
    (regression : String) : InterpOut :=
  match get_interpretation
      [("statistic", .num statistic), ("p_value", .num p_value),
       ("critical_values", .cmap critical_values),
       ("regression_type", .str regression)] with
  | .ok s => ⟨"success", some s, none⟩
  | .error e => ⟨"failed", none, some e⟩

/-- `_generate_recommendations` from `adf_mcp_server.py`. -/
def generate_recommendations (adf_result : ResultDict) (data_length : ℕ) :
    List String :=
  (if adf_result.is_stationary then
    ["时间序列是平稳的，适合进行ARIMA建模", "可以考虑进行短期预测"]
  else
    ["时间序列是非平稳的，建议进行差分处理", "可以考虑使用ARIMA模型进行建模"]) ++
  (if data_length < 100 then
    ["数据量较少，建议收集更多数据以提高分析可靠性"] else [])

/-- The `value_range` summary of the worker's result.  `np.std` involves a
square root and is delegated to an abstract collaborator. -/
structure ValueRange where
  vmin : ℚ
  vmax : ℚ
  vmean : ℚ
  vstd : ℚ
deriving Repr, DecidableEq

/-- `np.min` over a nonempty series. -/
def listMin (xs : List ℚ) : ℚ := xs.foldl min (xs.headD 0)

/-- `np.max` over a nonempty series. -/
def listMax (xs : List ℚ) : ℚ := xs.foldl max (xs.headD 0)

/-- `np.mean` over a nonempty series. -/
def listMean (xs : List ℚ) : ℚ := xs.sum / xs.length

/-- The `result` dictionary a succeeded file-analysis task stores. -/
structure WorkerResult where
  analysis_type : String
  file_path : String
  file_type : String
  time_series_length : ℕ
  value_range : ValueRange
  adf_result : ResultDict
  interpretation : String
  recommendations : List String
deriving Repr, DecidableEq

/-- The data pipeline of `_analyze_file_worker` after the file has been read:
raw-length validation, NaN removal, cleaned-length validation, the ADF test and
the assembly of the stored result.  `loaded` is the outcome of the external
data-loading collaborator (the pandas/text parsing stage); `npStd` is the
external `np.std` routine.  `Except.ok` corresponds to the task being marked
`succeeded` with the returned value as `result`; `Except.error` to the task
being marked `failed` with the message. -/
def analyze_file_worker_result (adfuller : AdfCall → AdfullerOut)
    (npStd : List ℚ → ℚ) (loaded : Except String (List FVal))
    (analysis_type file_path file_type : String)
    (regression : String) (max_lags : ℤ) (lags_method : String) :
    Except String WorkerResult × List AdfCall :=
  match loaded with
  | .error e => (.error e, [])
  | .ok time_series =>
    if time_series.length < 10 then
      (.error "数据长度必须至少为10个观测值", [])
    else
      let cleaned := dropNaN time_series
      if cleaned.length < 10 then
        (.error "有效数据长度必须至少为10个观测值", [])
      else
        match test_stationarity adfuller (cleaned.map some) regression
            max_lags lags_method with
        | (.error e, cs) => (.error e, cs)
        | (.ok adf, cs) =>
          match get_interpretation (resultToDict adf) with
          | .error e => (.error e, cs)
          | .ok interp =>
            (.ok {
              analysis_type := analysis_type
              file_path := file_path
              file_type := file_type
              time_series_length := cleaned.length
              value_range :=
                ⟨listMin cleaned, listMax cleaned, listMean cleaned, npStd cleaned⟩
              adf_result := adf
              interpretation := interp
              recommendations := generate_recommendations adf cleaned.length }, cs)

deriving instance DecidableEq for Except

/-- A trivial instance of the external `adfuller` collaborator, used to
instantiate theorems at concrete inputs. -/
def adfullerConst : AdfCall → AdfullerOut := fun _ => ⟨0, 0, 0, 0, 0, 0⟩

/-- NaN removal is the identity on a series that contains no NaN. -/
theorem dropNaN_map_some (l : List ℚ) : dropNaN (l.map some) = l := by
  induction l with
  | nil => rfl
  | cons a t ih => simp [dropNaN, List.filterMap_cons, ih]

/-- When `test_stationarity` succeeds, it invoked the external collaborator
exactly once, on the cleaned series, with the clamped maximum lag, and the
reported `data_length` is the cleaned length. -/
theorem test_stationarity_ok_calls (adfuller : AdfCall → AdfullerOut)
    (data : List FVal) (regression : String) (max_lags : ℤ)
    (lags_method : String) (r : ResultDict) (cs : List AdfCall)
    (h : test_stationarity adfuller data regression max_lags lags_method
        = (.ok r, cs)) :
    cs = [{ data := dropNaN data, regression := regression,
            maxlag := min max_lags (((dropNaN data).length : ℤ) / 2 - 1),
            autolag := lags_method }]
      ∧ r.data_length = (dropNaN data).length := by
  simp only [test_stationarity] at h
  split_ifs at h
  · simp at h
  · simp at h
  · simp at h
  · simp at h
  · simp only [Prod.mk.injEq, Except.ok.injEq] at h
    obtain ⟨h1, h2⟩ := h
    subst h1 h2
    exact ⟨rfl, rfl⟩

/-- C3: whenever the submitted series is shorter than 10 observations either
before or after NaN removal, `adf_test` returns a `failed` result carrying an
error message and the external `adfuller` collaborator is never invoked. -/
theorem adf_test_short_series_fails_without_adfuller
    (adfuller : AdfCall → AdfullerOut) (data : List FVal)
    (regression : String) (max_lags : ℤ) (lags_method : String)
    (hshort : data.length < 10 ∨ (dropNaN data).length < 10) :
    (adf_test adfuller data regression max_lags lags_method).2 = []
      ∧ (adf_test adfuller data regression max_lags lags_method).1.status = "failed"
      ∧ (adf_test adfuller data regression max_lags lags_method).1.error.isSome := by
  by_cases hraw : data.isEmpty || data.length < 10
  · simp [adf_test, hraw]
  · have hlen : ¬ data.length < 10 := by
      intro hc
      simp [hc] at hraw
    have hclean : (dropNaN data).length < 10 := hshort.resolve_left hlen
    unfold adf_test
    rw [if_neg (by simpa using hraw)]
    split_ifs
    · exact ⟨rfl, rfl, rfl⟩
    · exact ⟨rfl, rfl, rfl⟩
    · have : test_stationarity adfuller data regression max_lags lags_method
          = (.error "数据长度必须至少为10个观测值", []) := by
        simp [test_stationarity, hclean]
      rw [this]
      exact ⟨rfl, rfl, rfl⟩

/-- Witness for C3 at a concrete five-element series. -/
theorem adf_test_short_series_fails_without_adfuller_witness :
    (([some 1, some 2, some 3, some 4, some 5] : List FVal).length < 10
        ∨ (dropNaN [some 1, some 2, some 3, some 4, some 5]).length < 10)
      ∧ ((adf_test adfullerConst [some 1, some 2, some 3, some 4, some 5]
            "c" 10 "aic").2 = []
        ∧ (adf_test adfullerConst [some 1, some 2, some 3, some 4, some 5]
            "c" 10 "aic").1.status = "failed"
        ∧ (adf_test adfullerConst [some 1, some 2, some 3, some 4, some 5]
            "c" 10 "aic").1.error.isSome) :=
  ⟨by decide,
    adf_test_short_series_fails_without_adfuller adfullerConst
      [some 1, some 2, some 3, some 4, some 5] "c" 10 "aic" (by decide)⟩

/-- C6: a successful `test_stationarity` run passes the external collaborator a
maximum lag equal to `min(requested, floor(n/2) - 1)` where `n` is the cleaned
series length. -/
theorem test_stationarity_clamps_maxlag (adfuller : AdfCall → AdfullerOut)
    (data : List FVal) (regression : String) (max_lags : ℤ)
    (lags_method : String) (r : ResultDict) (cs : List AdfCall)
    (h : test_stationarity adfuller data regression max_lags lags_method
        = (.ok r, cs)) :
    ∃ c, cs = [c]
      ∧ c.maxlag = min max_lags (((dropNaN data).length : ℤ) / 2 - 1)
      ∧ c.data = dropNaN data := by
  obtain ⟨hcs, -⟩ := test_stationarity_ok_calls adfuller data regression
    max_lags lags_method r cs h
  exact ⟨_, hcs, rfl, rfl⟩

/-- Outcome of `test_stationarity` at the concrete witness input: the series
1..10, requested maximum lag 10, which the code clamps to `10 / 2 - 1 = 4`. -/
def witTenSeries : List FVal :=
  [some 1, some 2, some 3, some 4, some 5, some 6, some 7, some 8, some 9, some 10]

/-- The `result_dict` `test_stationarity` produces at the witness input. -/
def witTenResult : ResultDict :=
  ⟨0, 0, 0, 0, 0, true, 0, "c", "有常数项", "aic", "Akaike信息准则", 10, 4⟩

/-- Witness for C6 at the series 1..10 with requested maximum lag 10. -/
theorem test_stationarity_clamps_maxlag_witness :
    ∃ c, (test_stationarity adfullerConst witTenSeries "c" 10 "aic").2 = [c]
      ∧ c.maxlag = min 10 (((dropNaN witTenSeries).length : ℤ) / 2 - 1)
      ∧ c.data = dropNaN witTenSeries :=
  test_stationarity_clamps_maxlag adfullerConst witTenSeries "c" 10 "aic"
    witTenResult
    [⟨[1, 2, 3, 4, 5, 6, 7, 8, 9, 10], "c", 4, "aic"⟩]
    (by simp [test_stationarity, witTenSeries, witTenResult, adfullerConst,
      dropNaN, regression_types, lags_methods, List.lookup])

/-- C7: when the file-analysis pipeline succeeds, the stored
`result.data_summary.time_series_length` equals the length of the series after
NaN removal, and that cleaned series is exactly the one passed to the external
stationarity-test collaborator. -/
theorem worker_result_length_matches_cleaned
    (adfuller : AdfCall → AdfullerOut) (npStd : List ℚ → ℚ) (ts : List FVal)
    (analysis_type file_path file_type regression : String)
    (max_lags : ℤ) (lags_method : String)
    (r : WorkerResult) (cs : List AdfCall)
    (h : analyze_file_worker_result adfuller npStd (.ok ts) analysis_type
        file_path file_type regression max_lags lags_method = (.ok r, cs)) :
    ∃ c, cs = [c] ∧ c.data = dropNaN ts
      ∧ r.time_series_length = (dropNaN ts).length
      ∧ r.time_series_length = c.data.length := by
  simp only [analyze_file_worker_result] at h
  split_ifs at h
  · simp at h
  · simp at h
  · split at h
    · simp at h
    · rename_i adf cs2 heq
      split at h
      · simp at h
      · simp only [Prod.mk.injEq, Except.ok.injEq] at h
        obtain ⟨h1, h2⟩ := h
        subst h1 h2
        obtain ⟨hcs, -⟩ := test_stationarity_ok_calls _ _ _ _ _ _ _ heq
        rw [dropNaN_map_some] at hcs
        exact ⟨_, hcs, rfl, rfl, rfl⟩

/-- Witness for C7 at a concrete successful run on the series 1..10. -/
theorem worker_result_length_matches_cleaned_witness :
    ∃ r cs, analyze_file_worker_result adfullerConst (fun _ => 0)
        (.ok witTenSeries) "log_analysis" "data.csv" "csv" "c" 10 "aic"
        = (.ok r, cs)
      ∧ ∃ c, cs = [c] ∧ c.data = dropNaN witTenSeries
        ∧ r.time_series_length = (dropNaN witTenSeries).length
        ∧ r.time_series_length = c.data.length := by
  have hex : ∃ r cs, analyze_file_worker_result adfullerConst (fun _ => 0)
      (.ok witTenSeries) "log_analysis" "data.csv" "csv" "c" 10 "aic"
      = (.ok r, cs) := ⟨_, _, rfl⟩
  obtain ⟨r, cs, h⟩ := hex
  exact ⟨r, cs, h,
    worker_result_length_matches_cleaned _ _ _ _ _ _ _ _ _ r cs h⟩

/-- A nine-point series of valid observations. -/
def witNine : List FVal :=
  [some 1, some 2, some 3, some 4, some 5, some 6, some 7, some 8, some 9]

/-- A twelve-point series of valid observations. -/
def witTwelve : List FVal :=
  [some 1, some 2, some 3, some 4, some 5, some 6, some 7, some 8, some 9,
   some 10, some 11, some 12]

/-- C8: on the batch input with a nine-point series named `a` and a
twelve-point series named `b`, `adf_batch_test` returns a single `success`
response whose results map `a` to a `failed` entry (series too short) and `b`
to a `success` entry, for every behaviour of the external collaborator — the
failure of `a` does not abort the evaluation of `b`. -/
theorem adf_batch_test_isolates_failures (adfuller : AdfCall → AdfullerOut) :
    (adf_batch_test adfuller [("a", witNine), ("b", witTwelve)]
        "c" 10 "aic").1.status = "success"
      ∧ ∃ res, (adf_batch_test adfuller [("a", witNine), ("b", witTwelve)]
          "c" 10 "aic").1.results = some res
        ∧ (∃ e, res.lookup "a" = some ⟨"failed", none, some e⟩)
        ∧ (∃ r, res.lookup "b" = some ⟨"success", some r, none⟩) :=
  ⟨rfl, ⟨_, rfl, ⟨_, rfl⟩, ⟨_, rfl⟩⟩⟩

/-- C10: on any non-empty input mapping, the results map of `adf_batch_test`
carries exactly the input's names, in order — no series is dropped on failure
and no extra name is introduced, whatever the individual outcomes are. -/
theorem adf_batch_test_covers_all_names (adfuller : AdfCall → AdfullerOut)
    (p : String × List FVal) (rest : List (String × List FVal))
    (regression : String) (max_lags : ℤ) (lags_method : String) :
    (adf_batch_test adfuller (p :: rest) regression max_lags lags_method).1.status
        = "success"
      ∧ ∃ res, (adf_batch_test adfuller (p :: rest) regression max_lags
          lags_method).1.results = some res
        ∧ res.map Prod.fst = (p :: rest).map Prod.fst := by
  refine ⟨rfl, _, rfl, ?_⟩
  simp [adf_batch_test]

/-- C9: each of the three synchronous tools is total at its boundary — for
every input (including negative `max_lags`, unrecognized enumeration values,
NaN-containing data and critical-values mappings missing expected keys) it
returns a dictionary tagged `success` with a payload or `failed` with an error
message, and no exception escapes to the transport layer. -/
theorem sync_tools_return_status_tagged_outcome :
    (∀ (adfuller : AdfCall → AdfullerOut) (data : List FVal)
        (regression : String) (max_lags : ℤ) (lags_method : String),
      ((adf_test adfuller data regression max_lags lags_method).1.status = "success"
          ∧ (adf_test adfuller data regression max_lags lags_method).1.result.isSome
          ∧ (adf_test adfuller data regression max_lags lags_method).1.error = none)
        ∨ ((adf_test adfuller data regression max_lags lags_method).1.status = "failed"
          ∧ (adf_test adfuller data regression max_lags lags_method).1.result = none
          ∧ (adf_test adfuller data regression max_lags lags_method).1.error.isSome))
    ∧ (∀ (adfuller : AdfCall → AdfullerOut)
        (data_dict : List (String × List FVal))
        (regression : String) (max_lags : ℤ) (lags_method : String),
      ((adf_batch_test adfuller data_dict regression max_lags lags_method).1.status = "success"
          ∧ (adf_batch_test adfuller data_dict regression max_lags lags_method).1.results.isSome
          ∧ (adf_batch_test adfuller data_dict regression max_lags lags_method).1.error = none)
        ∨ ((adf_batch_test adfuller data_dict regression max_lags lags_method).1.status = "failed"
          ∧ (adf_batch_test adfuller data_dict regression max_lags lags_method).1.results = none
          ∧ (adf_batch_test adfuller data_dict regression max_lags lags_method).1.error.isSome))
    ∧ (∀ (statistic p_value : ℚ) (critical_values : List (String × ℚ))
        (regression : String),
      ((adf_interpret statistic p_value critical_values regression).status = "success"
          ∧ (adf_interpret statistic p_value critical_values regression).interpretation.isSome
          ∧ (adf_interpret statistic p_value critical_values regression).error = none)
        ∨ ((adf_interpret statistic p_value critical_values regression).status = "failed"
          ∧ (adf_interpret statistic p_value critical_values regression).interpretation = none
          ∧ (adf_interpret statistic p_value critical_values regression).error.isSome)) := by
  refine ⟨?_, ?_, ?_⟩
  · intro adfuller data regression max_lags lags_method
    unfold adf_test
    split_ifs
    · right; exact ⟨rfl, rfl, rfl⟩
    · right; exact ⟨rfl, rfl, rfl⟩
    · right; exact ⟨rfl, rfl, rfl⟩
    · split
      · left; exact ⟨rfl, rfl, rfl⟩
      · right; exact ⟨rfl, rfl, rfl⟩
  · intro adfuller data_dict regression max_lags lags_method
    unfold adf_batch_test
    split_ifs
    · right; exact ⟨rfl, rfl, rfl⟩
    · left; exact ⟨rfl, rfl, rfl⟩
  · intro statistic p_value critical_values regression
    unfold adf_interpret
    split
    · left; exact ⟨rfl, rfl, rfl⟩
    · right; exact ⟨rfl, rfl, rfl⟩

namespace Endpoint

/-- The `params` dictionary assembled by `adf_analyze_file`. -/
structure WParams where
  csv : Option String
  txt : Option String
  timestamp_col : String
  value_col : String
  delimiter : String
  has_header : Bool
  regression : String
  max_lags : ℤ
  lags_method : String
  analysis_type : String
deriving Repr, DecidableEq

/-- A task record of the `TASKS` registry as seen by the submission endpoint
(the `result` dictionary is irrelevant here and kept opaque). -/
structure STask where
  id : String
  ttype : String
  params : WParams
  status : String
  progress : ℚ
  created_at : String
  started_at : Option String
  completed_at : Option String
  result : Option String
  error : Option String
  tb : Option String
deriving Repr, DecidableEq

/-- The server state the submission endpoint touches: the `TASKS` map (in
insertion order), the uuid source, the clock reading, the set of existing
file-system paths (the `os.path.exists` oracle) and the free count of
`TASKS_SEM`. -/
structure SrvState where
  tasks : List (String × STask)
  nextId : ℕ
  now : String
  fs : List String
  sem : ℕ
deriving Repr, DecidableEq

/-- The identifier `str(uuid.uuid4())` hands out next, modelled as a counter. -/
def freshId (st : SrvState) : String := "task-" ++ toString st.nextId

/-- `_create_task` from `adf_mcp_server.py`: build a `queued` record and insert
it into the registry. -/
def create_task (st : SrvState) (ttype : String) (params : WParams) :
    SrvState × String :=
  let tid := freshId st
  let t : STask :=
    ⟨tid, ttype, params, "queued", 0, st.now, none, none, none, none, none⟩
  ({ st with tasks := st.tasks ++ [(tid, t)], nextId := st.nextId + 1 }, tid)

/-- The `_set_task(task_id, status="failed", error=msg, completed_at=now)`
update the endpoint performs on its synchronous failure paths; a no-op if the
id is unknown, like `_set_task`. -/
def set_task_failed (st : SrvState) (tid : String) (err : String) : SrvState :=
  { st with tasks := st.tasks.map (fun p =>
      if p.1 = tid then
        (p.1, { p.2 with status := "failed", error := some err,
                         completed_at := some st.now })
      else p) }

/-- Python truthiness of an `Optional[str]`: `None` and `""` are falsy. -/
def truthy : Option String → Bool
  | none => false
  | some s => !(s == "")

/-- The dictionary `adf_analyze_file` returns to the caller. -/
structure SubmitOut where
  status : String
  task_id : String
  ttype : String
  error : Option String
deriving Repr, DecidableEq

/-- A worker thread spawned by `_start_background(_analyze_file_worker, ...)`. -/
structure SpawnReq where
  task_id : String
  params : WParams
deriving Repr, DecidableEq

/-- The tool `adf_analyze_file` from `adf_mcp_server.py`: mutual-exclusivity
check on `csv`/`txt` (with Python truthiness, `csv or txt` selecting the file
path), existence check, then either a synchronously failed task or a `queued`
task handed to a background worker.  The returned list collects the worker
threads spawned. -/
def adf_analyze_file (st : SrvState) (csv txt : Option String)
    (timestamp_col value_col delimiter : String) (has_header : Bool)
    (regression : String) (max_lags : ℤ)
    (lags_method analysis_type : String) :
    SrvState × SubmitOut × List SpawnReq :=
  let params : WParams := ⟨csv, txt, timestamp_col, value_col, delimiter,
    has_header, regression, max_lags, lags_method, analysis_type⟩
  if (truthy csv && truthy txt) || (!truthy csv && !truthy txt) then
    let msg := "请指定csv或txt文件路径中的一个"
    let (st1, tid) := create_task st "adf_analyze_file" params
    let st2 := set_task_failed st1 tid msg
    (st2, ⟨"failed", tid, "adf_analyze_file", some msg⟩, [])
  else
    let file_path := if truthy csv then csv.getD "" else txt.getD ""
    if file_path ∉ st.fs then
      let msg := "文件不存在: " ++ file_path
      let (st1, tid) := create_task st "adf_analyze_file" params
      let st2 := set_task_failed st1 tid msg
      (st2, ⟨"failed", tid, "adf_analyze_file", some msg⟩, [])
    else
      let (st1, tid) := create_task st "adf_analyze_file" params
      (st1, ⟨"queued", tid, "adf_analyze_file", none⟩, [⟨tid, params⟩])

end Endpoint

/-- Association-list lookup over an append scans the left list first. -/
theorem lookup_append {α β : Type} [BEq α] (l1 l2 : List (α × β)) (k : α) :
    (l1 ++ l2).lookup k = (l1.lookup k).or (l2.lookup k) := by
  induction l1 with
  | nil => simp [List.lookup]
  | cons p t ih =>
    cases hk : k == p.1 <;> simp [List.lookup, hk, ih]

/-- Association-list lookup misses when every stored key differs. -/
theorem lookup_eq_none_of_ne {α β : Type} [BEq α] [LawfulBEq α]
    (l : List (α × β)) (k : α) (h : ∀ p ∈ l, p.1 ≠ k) : l.lookup k = none := by
  induction l with
  | nil => rfl
  | cons p t ih =>
    have h1 : p.1 ≠ k := h p (by simp)
    have hk : (k == p.1) = false := by
      simp only [beq_eq_false_iff_ne]
      exact fun e => h1 e.symm
    simp only [List.lookup, hk]
    exact ih (fun q hq => h q (by simp [hq]))

namespace Endpoint

/-- Creating a task and immediately marking it failed leaves the registry with
the failed record under the fresh id. -/
theorem failed_task_lookup (st : SrvState) (params : WParams) (msg : String)
    (hfresh : ∀ p ∈ st.tasks, p.1 ≠ freshId st) :
    (set_task_failed (create_task st "adf_analyze_file" params).1
        (create_task st "adf_analyze_file" params).2 msg).tasks.lookup (freshId st)
      = some ⟨freshId st, "adf_analyze_file", params, "failed", 0, st.now, none,
          some st.now, none, some msg, none⟩ := by
  have hmap : st.tasks.map (fun p =>
      if p.1 = freshId st then
        (p.1, { p.2 with status := "failed", error := some msg,
                         completed_at := some st.now })
      else p) = st.tasks := by
    have := List.map_congr_left (l := st.tasks)
      (f := fun p =>
        if p.1 = freshId st then
          (p.1, { p.2 with status := "failed", error := some msg,
                           completed_at := some st.now })
        else p) (g := id) (fun a ha => by simp [hfresh a ha])
    simpa using this
  have hsingle : List.map (fun p =>
      if p.1 = freshId st then
        (p.1, { p.2 with status := "failed", error := some msg,
                         completed_at := some st.now })
      else p)
      [(freshId st, (⟨freshId st, "adf_analyze_file", params, "queued", 0,
          st.now, none, none, none, none, none⟩ : STask))]
    = [(freshId st, (⟨freshId st, "adf_analyze_file", params, "failed", 0,
          st.now, none, some st.now, none, some msg, none⟩ : STask))] := by
    simp
  simp only [set_task_failed, create_task]
  rw [List.map_append, hmap, hsingle]
  rw [lookup_append, lookup_eq_none_of_ne st.tasks (freshId st) hfresh]
  simp [List.lookup]

/-- C4: a submission in which both source arguments are set, or neither is
set, or the referenced path does not exist, synchronously yields a `failed`
task record carrying the error message, returns that task id with status
`failed`, spawns no worker thread and leaves the concurrency-limiter count
untouched. -/
theorem adf_analyze_file_invalid_fails_sync
    (st : SrvState) (csv txt : Option String)
    (timestamp_col value_col delimiter : String) (has_header : Bool)
    (regression : String) (max_lags : ℤ) (lags_method analysis_type : String)
    (hfresh : ∀ p ∈ st.tasks, p.1 ≠ freshId st)
    (hbad : (truthy csv = true ∧ truthy txt = true)
        ∨ (truthy csv = false ∧ truthy txt = false)
        ∨ (if truthy csv then csv.getD "" else txt.getD "") ∉ st.fs) :
    (adf_analyze_file st csv txt timestamp_col value_col delimiter has_header
        regression max_lags lags_method analysis_type).2.2 = []
      ∧ (adf_analyze_file st csv txt timestamp_col value_col delimiter has_header
          regression max_lags lags_method analysis_type).2.1.status = "failed"
      ∧ (adf_analyze_file st csv txt timestamp_col value_col delimiter has_header
          regression max_lags lags_method analysis_type).1.sem = st.sem
      ∧ ∃ msg, (adf_analyze_file st csv txt timestamp_col value_col delimiter
          has_header regression max_lags lags_method analysis_type).2.1.error
            = some msg
        ∧ ∃ t, (adf_analyze_file st csv txt timestamp_col value_col delimiter
            has_header regression max_lags lags_method
            analysis_type).1.tasks.lookup
              ((adf_analyze_file st csv txt timestamp_col value_col delimiter
                has_header regression max_lags lags_method
                analysis_type).2.1.task_id) = some t
          ∧ t.status = "failed" ∧ t.error = some msg
          ∧ t.completed_at = some st.now := by
  by_cases h1 : ((truthy csv && truthy txt) || (!truthy csv && !truthy txt)) = true
  · simp only [adf_analyze_file, h1, if_true]
    exact ⟨trivial, trivial, rfl, _, rfl, _,
      failed_task_lookup st _ _ hfresh, rfl, rfl, rfl⟩
  · have h1f : ((truthy csv && truthy txt) || (!truthy csv && !truthy txt)) = false :=
      Bool.eq_false_iff.mpr h1
    have hpath : (if truthy csv then csv.getD "" else txt.getD "") ∉ st.fs := by
      rcases hbad with ⟨ha, hb⟩ | ⟨ha, hb⟩ | hc
      · rw [ha, hb] at h1f; simp at h1f
      · rw [ha, hb] at h1f; simp at h1f
      · exact hc
    simp only [adf_analyze_file, h1f, Bool.false_eq_true, if_false]
    rw [if_pos hpath]
    exact ⟨rfl, rfl, rfl, _, rfl, _,
      failed_task_lookup st _ _ hfresh, rfl, rfl, rfl⟩

/-- A concrete server state for instantiating the submission theorems. -/
def witSt : SrvState := ⟨[], 0, "2024-06-01T00:00:00+08:00", [], 2⟩

/-- Witness for C4: submitting with both `csv` and `txt` set, from an empty
registry. -/
theorem adf_analyze_file_invalid_fails_sync_witness :
    (∀ p ∈ witSt.tasks, p.1 ≠ freshId witSt)
      ∧ ((truthy (some "a.csv") = true ∧ truthy (some "b.txt") = true)
        ∨ (truthy (some "a.csv") = false ∧ truthy (some "b.txt") = false)
        ∨ (if truthy (some "a.csv") then (some "a.csv").getD ""
            else (some "b.txt").getD "") ∉ witSt.fs)
      ∧ ((adf_analyze_file witSt (some "a.csv") (some "b.txt") "Date" "EventId"
            " " true "c" 10 "aic" "log_analysis").2.2 = []
        ∧ (adf_analyze_file witSt (some "a.csv") (some "b.txt") "Date" "EventId"
            " " true "c" 10 "aic" "log_analysis").2.1.status = "failed"
        ∧ (adf_analyze_file witSt (some "a.csv") (some "b.txt") "Date" "EventId"
            " " true "c" 10 "aic" "log_analysis").1.sem = witSt.sem
        ∧ ∃ msg, (adf_analyze_file witSt (some "a.csv") (some "b.txt") "Date"
            "EventId" " " true "c" 10 "aic" "log_analysis").2.1.error = some msg
          ∧ ∃ t, (adf_analyze_file witSt (some "a.csv") (some "b.txt") "Date"
              "EventId" " " true "c" 10 "aic" "log_analysis").1.tasks.lookup
                ((adf_analyze_file witSt (some "a.csv") (some "b.txt") "Date"
                  "EventId" " " true "c" 10 "aic" "log_analysis").2.1.task_id)
                = some t
            ∧ t.status = "failed" ∧ t.error = some msg
            ∧ t.completed_at = some witSt.now) :=
  ⟨by simp [witSt], Or.inl ⟨rfl, rfl⟩,
    adf_analyze_file_invalid_fails_sync witSt (some "a.csv") (some "b.txt")
      "Date" "EventId" " " true "c" 10 "aic" "log_analysis"
      (by simp [witSt]) (Or.inl ⟨rfl, rfl⟩)⟩

end Endpoint

namespace Registry

/-- The content of a nested Python dictionary (a task's `params` or `result`
value).  Task records store references into the heap rather than the content,
because Python's `dict(t)` copy is shallow. -/
abbrev Payload := List (String × ℚ)

/-- A reference to a nested dictionary object. -/
abbrev Ref := ℕ

/-- The top level of a task dictionary: plain fields inline, nested
dictionaries (`params`, `result`) by reference. -/
structure TaskRec where
  id : String
  ttype : String
  params : Ref
  status : String
  progress : ℚ
  created_at : String
  started_at : Option String
  completed_at : Option String
  result : Option Ref
  error : Option String
  tb : Option String
deriving Repr, DecidableEq

/-- The registry state: the `TASKS` map, the heap of nested dictionary
objects, and the next fresh reference. -/
structure RegState where
  tasks : List (String × TaskRec)
  heap : List (Ref × Payload)
  nextRef : ℕ
deriving Repr, DecidableEq

/-- `_get_task` from `adf_mcp_server.py`: `dict(TASKS.get(task_id, {}))`, a
shallow copy — the top-level record is copied by value while `params` and
`result` remain shared references into the heap (`none` models the empty
dictionary for an unknown id). -/
def get_task (st : RegState) (tid : String) : Option TaskRec :=
  st.tasks.lookup tid

/-- `_list_tasks` from `adf_mcp_server.py`: a shallow copy of every record. -/
def list_tasks (st : RegState) : List TaskRec := st.tasks.map (fun p => p.2)

/-- A `_set_task(task_id, **updates)` argument list: each field either absent
or replaced; a `result` update carries the freshly built result dictionary the
worker allocates. -/
structure Updates where
  status : Option String
  progress : Option ℚ
  started_at : Option String
  completed_at : Option String
  error : Option String
  tb : Option String
  result : Option Payload
deriving Repr, DecidableEq

/-- Applying the keyword updates to one record, the `result` value (if any)
having been allocated at reference `resRef`. -/
def updRec (r : TaskRec) (u : Updates) (resRef : Option Ref) : TaskRec :=
  { r with
    status := u.status.getD r.status
    progress := u.progress.getD r.progress
    started_at := match u.started_at with | some s => some s | none => r.started_at
    completed_at := match u.completed_at with | some s => some s | none => r.completed_at
    error := match u.error with | some s => some s | none => r.error
    tb := match u.tb with | some s => some s | none => r.tb
    result := match resRef with | some n => some n | none => r.result }

/-- `_set_task` from `adf_mcp_server.py`: under the lock, update the stored
record in place if the id is known (a no-op otherwise).  A `result` update
first allocates the worker's freshly built dictionary on the heap; no existing
heap cell is ever written. -/
def set_task (st : RegState) (tid : String) (u : Updates) : RegState :=
  match st.tasks.lookup tid with
  | none => st
  | some _ =>
    match u.result with
    | none =>
      { st with tasks := st.tasks.map (fun p =>
          if p.1 = tid then (p.1, updRec p.2 u none) else p) }
    | some payload =>
      { tasks := st.tasks.map (fun p =>
          if p.1 = tid then (p.1, updRec p.2 u (some st.nextRef)) else p),
        heap := st.heap ++ [(st.nextRef, payload)],
        nextRef := st.nextRef + 1 }

/-- The value a caller holding a shallow copy actually observes: the top-level
fields plus the dereferenced nested dictionaries. -/
structure TaskView where
  id : String
  ttype : String
  params : Option Payload
  status : String
  progress : ℚ
  created_at : String
  started_at : Option String
  completed_at : Option String
  result : Option (Option Payload)
  error : Option String
  tb : Option String
deriving Repr, DecidableEq

/-- Dereference a shallow copy against a heap. -/
def viewOf (heap : List (Ref × Payload)) (r : TaskRec) : TaskView :=
  ⟨r.id, r.ttype, heap.lookup r.params, r.status, r.progress, r.created_at,
    r.started_at, r.completed_at, r.result.map (fun n => heap.lookup n),
    r.error, r.tb⟩

/-- Well-formedness: every reference stored in the registry was allocated
before `nextRef`. -/
def WF (st : RegState) : Prop :=
  ∀ p ∈ st.tasks, p.2.params < st.nextRef
    ∧ p.2.result.all (fun n => n < st.nextRef) = true

end Registry

/-- A successful association-list lookup comes from an entry of the list. -/
theorem mem_of_lookup_eq_some {α β : Type} [BEq α] [LawfulBEq α]
    {l : List (α × β)} {k : α} {v : β}
    (h : l.lookup k = some v) : ∃ k2, (k2, v) ∈ l := by
  induction l with
  | nil => simp [List.lookup] at h
  | cons p t ih =>
    rw [List.lookup] at h
    cases hk : k == p.1 with
    | true =>
      rw [hk] at h
      simp only [Option.some.injEq] at h
      exact ⟨p.1, by simp [← h]⟩
    | false =>
      rw [hk] at h
      obtain ⟨k2, hm⟩ := ih h
      exact ⟨k2, by simp [hm]⟩

/-- Appending a cell with a different key does not change a lookup. -/
theorem lookup_extend_ne {β : Type} (heap : List (ℕ × β)) (n : ℕ) (p : β)
    (k : ℕ) (hk : k ≠ n) : (heap ++ [(n, p)]).lookup k = heap.lookup k := by
  rw [lookup_append]
  cases h : heap.lookup k with
  | some v => rfl
  | none =>
    have hkn : (k == n) = false := by
      simp [beq_eq_false_iff_ne, hk]
    have : List.lookup k [(n, p)] = none := by
      simp [List.lookup, hkn]
    simp [this, Option.or]

namespace Registry

/-- C5: the registry's reads are snapshots — the value observed through a
record handed out by `get_task` is unchanged by any later `set_task`, because
the shallow copy decouples the top-level fields and updates never write to an
existing nested dictionary (a `result` update allocates a fresh one). -/
theorem get_task_snapshot_immutable (st : RegState) (hWF : WF st)
    (tid : String) (snap : TaskRec) (hsnap : get_task st tid = some snap)
    (tid2 : String) (u : Updates) :
    viewOf (set_task st tid2 u).heap snap = viewOf st.heap snap := by
  unfold set_task
  cases hl : st.tasks.lookup tid2 with
  | none => rfl
  | some r0 =>
    cases hu : u.result with
    | none => rfl
    | some payload =>
      obtain ⟨k2, hmem⟩ := mem_of_lookup_eq_some hsnap
      obtain ⟨hp, hr⟩ := hWF (k2, snap) hmem
      cases hres : snap.result with
      | none =>
        simp [viewOf, lookup_extend_ne _ _ _ _ (Nat.ne_of_lt hp), hres]
      | some n =>
        have hn : n < st.nextRef := by
          rw [hres] at hr
          simpa [Option.all] using hr
        simp [viewOf, lookup_extend_ne _ _ _ _ (Nat.ne_of_lt hp),
          lookup_extend_ne _ _ _ _ (Nat.ne_of_lt hn), hres]

/-- A concrete running task whose `params` dictionary lives at heap cell 0. -/
def witRec : TaskRec :=
  ⟨"t1", "adf_analyze_file", 0, "running", 0, "2024-06-01T00:00:00+08:00",
    some "2024-06-01T00:00:01+08:00", none, none, none, none⟩

/-- A concrete registry holding `witRec`. -/
def witReg : RegState := ⟨[("t1", witRec)], [(0, [("csv", 1)])], 1⟩

/-- Witness for C5: a snapshot of `t1` is unchanged by a later update that
marks `t1` succeeded and attaches a result dictionary. -/
theorem get_task_snapshot_immutable_witness :
    WF witReg ∧ get_task witReg "t1" = some witRec
      ∧ viewOf (set_task witReg "t1"
          ⟨some "succeeded", some 1, none, some "2024-06-01T00:00:02+08:00",
            none, none, some [("statistic", 0)]⟩).heap witRec
        = viewOf witReg.heap witRec :=
  ⟨by simp [WF, witReg, witRec], rfl,
    get_task_snapshot_immutable witReg (by simp [WF, witReg, witRec]) "t1"
      witRec rfl
      "t1" ⟨some "succeeded", some 1, none, some "2024-06-01T00:00:02+08:00",
        none, none, some [("statistic", 0)]⟩⟩

end Registry

namespace Sched

/-- The `status` field of a task record. -/
inductive St where
  | queued | running | succeeded | failed
deriving Repr, DecidableEq

/-- The control locations of `_analyze_file_worker` (plus `start` for a task
whose thread has not yet entered the `with TASKS_SEM` block, and `done`).
`raised` and `released` model the unexpected-exception path: the exception
propagates out of the `with` block, which releases the semaphore *before* the
`except` handler marks the task failed. -/
inductive Pc where
  | start        -- before `TASKS_SEM.acquire`
  | acquired     -- semaphore held, `status="running"` not yet written
  | working      -- running inside the `with` block
  | termInBlock  -- terminal status written inside the block, release pending
  | raised       -- exception raised, semaphore still held during unwinding
  | released     -- `with` exited on the exception path, handler not yet run
  | done
deriving Repr, DecidableEq

/-- One task together with the control location of the thread that owns it. -/
structure Worker where
  status : St
  pc : Pc
deriving Repr, DecidableEq

/-- Global state: the free count of `TASKS_SEM` plus every task's record and
worker position. -/
structure Sys where
  sem : ℕ
  workers : List Worker
deriving Repr, DecidableEq

/-- The initial state: `TASKS_SEM = Semaphore(cap)` and `n` submitted tasks,
each `queued` (as `_create_task` writes) with its worker not yet scheduled. -/
def initSys (cap n : ℕ) : Sys := ⟨cap, List.replicate n ⟨.queued, .start⟩⟩

/-- The interleaving semantics of the server: each constructor is one atomic
step of some worker `i`, following `_analyze_file_worker` line by line.
`syncFail` is the synchronous pre-validation failure performed by
`adf_analyze_file` on a task that never gets a worker. -/
inductive Step : Sys → Sys → Prop where
  | acquire (s : Sys) (i : ℕ) (w : Worker)
      (hw : s.workers[i]? = some w) (hpc : w.pc = .start)
      (hsem : 0 < s.sem) :
      Step s ⟨s.sem - 1, s.workers.set i ⟨w.status, .acquired⟩⟩
  | setRunning (s : Sys) (i : ℕ) (w : Worker)
      (hw : s.workers[i]? = some w) (hpc : w.pc = .acquired) :
      Step s ⟨s.sem, s.workers.set i ⟨.running, .working⟩⟩
  | finishOk (s : Sys) (i : ℕ) (w : Worker)
      (hw : s.workers[i]? = some w) (hpc : w.pc = .working) :
      Step s ⟨s.sem, s.workers.set i ⟨.succeeded, .termInBlock⟩⟩
  | finishFail (s : Sys) (i : ℕ) (w : Worker)
      (hw : s.workers[i]? = some w) (hpc : w.pc = .working) :
      Step s ⟨s.sem, s.workers.set i ⟨.failed, .termInBlock⟩⟩
  | raiseExc (s : Sys) (i : ℕ) (w : Worker)
      (hw : s.workers[i]? = some w) (hpc : w.pc = .working) :
      Step s ⟨s.sem, s.workers.set i ⟨w.status, .raised⟩⟩
  | release (s : Sys) (i : ℕ) (w : Worker)
      (hw : s.workers[i]? = some w) (hpc : w.pc = .termInBlock) :
      Step s ⟨s.sem + 1, s.workers.set i ⟨w.status, .done⟩⟩
  | releaseExc (s : Sys) (i : ℕ) (w : Worker)
      (hw : s.workers[i]? = some w) (hpc : w.pc = .raised) :
      Step s ⟨s.sem + 1, s.workers.set i ⟨w.status, .released⟩⟩
  | setFailedExc (s : Sys) (i : ℕ) (w : Worker)
      (hw : s.workers[i]? = some w) (hpc : w.pc = .released) :
      Step s ⟨s.sem, s.workers.set i ⟨.failed, .done⟩⟩
  | syncFail (s : Sys) (i : ℕ) (w : Worker)
      (hw : s.workers[i]? = some w) (hpc : w.pc = .start) :
      Step s ⟨s.sem, s.workers.set i ⟨.failed, .done⟩⟩

/-- Reachability from a state by interleaved steps. -/
def Reachable (s s2 : Sys) : Prop := Relation.ReflTransGen Step s s2

/-- A worker holds a semaphore slot from the successful `acquire` until the
corresponding release — including while an exception is unwinding the `with`
block. -/
def holdsSlot (w : Worker) : Bool :=
  w.pc == .acquired || w.pc == .working || w.pc == .termInBlock || w.pc == .raised

/-- The number of tasks whose status is `running`. -/
def runningCount (s : Sys) : ℕ :=
  s.workers.countP (fun w => w.status == St.running)

/-- The number of workers holding a semaphore slot. -/
def slotCount (s : Sys) : ℕ := s.workers.countP holdsSlot

/-- The status a worker's control location implies (single-writer registry:
only the owning thread writes the record after creation). -/
def pcStOk (w : Worker) : Bool :=
  match w.pc with
  | .start => w.status == .queued
  | .acquired => w.status == .queued
  | .working => w.status == .running
  | .raised => w.status == .running
  | .released => w.status == .running
  | .termInBlock => w.status == .succeeded || w.status == .failed
  | .done => w.status == .succeeded || w.status == .failed

/-- The inductive invariant: slot accounting plus the pc/status relation. -/
def Inv (cap : ℕ) (s : Sys) : Prop :=
  s.sem + slotCount s = cap ∧ ∀ w ∈ s.workers, pcStOk w = true

end Sched

/-- Counting over a list update, in addition form. -/
theorem countP_set_add {α : Type} (p : α → Bool) (l : List α) (i : ℕ) (a x : α)
    (h : l[i]? = some a) :
    (l.set i x).countP p + (if p a then 1 else 0)
      = l.countP p + (if p x then 1 else 0) := by
  induction l generalizing i with
  | nil => simp at h
  | cons b t ih =>
    cases i with
    | zero =>
      simp only [List.getElem?_cons_zero, Option.some.injEq] at h
      subst h
      simp only [List.set, List.countP_cons]
      omega
    | succ j =>
      simp only [List.getElem?_cons_succ] at h
      simp only [List.set, List.countP_cons]
      have := ih j h
      omega

namespace Sched

theorem inv_step (cap : ℕ) (s s2 : Sys) (hstep : Step s s2) (hinv : Inv cap s) :
    Inv cap s2 := by
  obtain ⟨hsem, hpcst⟩ := hinv
  cases hstep with
  | acquire i w hw hpc hsemgt =>
    obtain ⟨wst, wpc⟩ := w
    simp only [Worker.pc] at hpc
    subst hpc
    have hok : pcStOk ⟨wst, .start⟩ = true := hpcst _ (List.getElem?_mem hw)
    have hq : wst = .queued := by simpa [pcStOk] using hok
    subst hq
    refine ⟨?_, ?_⟩
    · have hc := countP_set_add holdsSlot s.workers i _ ⟨.queued, .acquired⟩ hw
      simp only [holdsSlot] at hc
      simp only [slotCount] at hsem ⊢
      simp at hc
      omega
    · intro w2 hw2
      rcases List.mem_or_eq_of_mem_set hw2 with hmem | rfl
      · exact hpcst w2 hmem
      · rfl
  | setRunning i w hw hpc =>
    obtain ⟨wst, wpc⟩ := w
    simp only [Worker.pc] at hpc
    subst hpc
    refine ⟨?_, ?_⟩
    · have hc := countP_set_add holdsSlot s.workers i _ ⟨.running, .working⟩ hw
      simp only [holdsSlot] at hc
      simp only [slotCount] at hsem ⊢
      simp at hc
      omega
    · intro w2 hw2
      rcases List.mem_or_eq_of_mem_set hw2 with hmem | rfl
      · exact hpcst w2 hmem
      · rfl
  | finishOk i w hw hpc =>
    obtain ⟨wst, wpc⟩ := w
    simp only [Worker.pc] at hpc
    subst hpc
    refine ⟨?_, ?_⟩
    · have hc := countP_set_add holdsSlot s.workers i _ ⟨.succeeded, .termInBlock⟩ hw
      simp only [holdsSlot] at hc
      simp only [slotCount] at hsem ⊢
      simp at hc
      omega
    · intro w2 hw2
      rcases List.mem_or_eq_of_mem_set hw2 with hmem | rfl
      · exact hpcst w2 hmem
      · rfl
  | finishFail i w hw hpc =>
    obtain ⟨wst, wpc⟩ := w
    simp only [Worker.pc] at hpc
    subst hpc
    refine ⟨?_, ?_⟩
    · have hc := countP_set_add holdsSlot s.workers i _ ⟨.failed, .termInBlock⟩ hw
      simp only [holdsSlot] at hc
      simp only [slotCount] at hsem ⊢
      simp at hc
      omega
    · intro w2 hw2
      rcases List.mem_or_eq_of_mem_set hw2 with hmem | rfl
      · exact hpcst w2 hmem
      · rfl
  | raiseExc i w hw hpc =>
    obtain ⟨wst, wpc⟩ := w
    simp only [Worker.pc] at hpc
    subst hpc
    have hok : pcStOk ⟨wst, .working⟩ = true := hpcst _ (List.getElem?_mem hw)
    have hq : wst = .running := by simpa [pcStOk] using hok
    subst hq
    refine ⟨?_, ?_⟩
    · have hc := countP_set_add holdsSlot s.workers i _ ⟨.running, .raised⟩ hw
      simp only [holdsSlot] at hc
      simp only [slotCount] at hsem ⊢
      simp at hc
      omega
    · intro w2 hw2
      rcases List.mem_or_eq_of_mem_set hw2 with hmem | rfl
      · exact hpcst w2 hmem
      · rfl
  | release i w hw hpc =>
    obtain ⟨wst, wpc⟩ := w
    simp only [Worker.pc] at hpc
    subst hpc
    have hok : pcStOk ⟨wst, .termInBlock⟩ = true := hpcst _ (List.getElem?_mem hw)
    refine ⟨?_, ?_⟩
    · have hc := countP_set_add holdsSlot s.workers i _ ⟨wst, .done⟩ hw
      simp only [holdsSlot] at hc
      simp only [slotCount] at hsem ⊢
      simp at hc
      omega
    · intro w2 hw2
      rcases List.mem_or_eq_of_mem_set hw2 with hmem | rfl
      · exact hpcst w2 hmem
      · simpa [pcStOk] using hok
  | releaseExc i w hw hpc =>
    obtain ⟨wst, wpc⟩ := w
    simp only [Worker.pc] at hpc
    subst hpc
    have hok : pcStOk ⟨wst, .raised⟩ = true := hpcst _ (List.getElem?_mem hw)
    have hq : wst = .running := by simpa [pcStOk] using hok
    subst hq
    refine ⟨?_, ?_⟩
    · have hc := countP_set_add holdsSlot s.workers i _ ⟨.running, .released⟩ hw
      simp only [holdsSlot] at hc
      simp only [slotCount] at hsem ⊢
      simp at hc
      omega
    · intro w2 hw2
      rcases List.mem_or_eq_of_mem_set hw2 with hmem | rfl
      · exact hpcst w2 hmem
      · rfl
  | setFailedExc i w hw hpc =>
    obtain ⟨wst, wpc⟩ := w
    simp only [Worker.pc] at hpc
    subst hpc
    refine ⟨?_, ?_⟩
    · have hc := countP_set_add holdsSlot s.workers i _ ⟨.failed, .done⟩ hw
      simp only [holdsSlot] at hc
      simp only [slotCount] at hsem ⊢
      simp at hc
      omega
    · intro w2 hw2
      rcases List.mem_or_eq_of_mem_set hw2 with hmem | rfl
      · exact hpcst w2 hmem
      · rfl
  | syncFail i w hw hpc =>
    obtain ⟨wst, wpc⟩ := w
    simp only [Worker.pc] at hpc
    subst hpc
    refine ⟨?_, ?_⟩
    · have hc := countP_set_add holdsSlot s.workers i _ ⟨.failed, .done⟩ hw
      simp only [holdsSlot] at hc
      simp only [slotCount] at hsem ⊢
      simp at hc
      omega
    · intro w2 hw2
      rcases List.mem_or_eq_of_mem_set hw2 with hmem | rfl
      · exact hpcst w2 hmem
      · rfl

end Sched

namespace Sched

/-- The invariant holds initially: the semaphore is at capacity, no slot is
held, every task record starts `queued`. -/
theorem inv_init (cap n : ℕ) : Inv cap (initSys cap n) := by
  constructor
  · have h0 : slotCount (initSys cap n) = 0 := by
      simp [slotCount, initSys, List.countP_eq_zero, holdsSlot]
    show (initSys cap n).sem + slotCount (initSys cap n) = cap
    rw [h0]
    rfl
  · intro w hw
    simp [initSys] at hw
    rw [hw.2]
    rfl

/-- The invariant is preserved along every reachable state. -/
theorem inv_reachable (cap n : ℕ) (s : Sys)
    (h : Reachable (initSys cap n) s) : Inv cap s := by
  induction h with
  | refl => exact inv_init cap n
  | tail hsteps hstep ih => exact inv_step cap _ _ hstep ih

/-- C1 (amended): in every reachable state at most `capacity` tasks are
simultaneously in `running` status *while their worker still holds a
concurrency-limiter slot* — equivalently, at most `capacity` workers hold the
semaphore at once.  (The unqualified running-status count can transiently
exceed `capacity`: see the counterexample, where the exception path releases
the slot before the handler marks the task failed.) -/
theorem running_with_slot_bounded (cap n : ℕ) (s : Sys)
    (h : Reachable (initSys cap n) s) :
    s.workers.countP (fun w => w.status == St.running && holdsSlot w) ≤ cap := by
  obtain ⟨hsem, -⟩ := inv_reachable cap n s h
  have hle : s.workers.countP (fun w => w.status == St.running && holdsSlot w)
      ≤ slotCount s := by
    apply List.countP_mono_left
    intro w hw hrun
    exact (Bool.and_elim_right hrun)
  simp only [slotCount] at hsem hle
  omega

/-- Witness for the amended C1 at capacity 2 with three submitted jobs. -/
theorem running_with_slot_bounded_witness :
    Reachable (initSys 2 3) (initSys 2 3)
      ∧ (initSys 2 3).workers.countP
          (fun w => w.status == St.running && holdsSlot w) ≤ 2 :=
  ⟨Relation.ReflTransGen.refl,
    running_with_slot_bounded 2 3 (initSys 2 3) Relation.ReflTransGen.refl⟩

/-- C1 counterexample: the claim as stated is false.  With capacity 2 and
three submitted jobs, the schedule in which worker 0 sets `running`, raises an
unexpected exception — whereupon the `with TASKS_SEM` block releases the slot
*before* the `except` handler marks the task `failed` — lets workers 1 and 2
acquire and set `running`, reaching a state with three tasks simultaneously in
`running` status. -/
theorem running_bound_counterexample :
    ¬ (∀ s : Sys, Reachable (initSys 2 3) s → runningCount s ≤ 2) := by
  intro hall
  have h0 : Reachable (initSys 2 3) (initSys 2 3) := Relation.ReflTransGen.refl
  have h1 : Reachable (initSys 2 3)
      ⟨1, [⟨.queued, .acquired⟩, ⟨.queued, .start⟩, ⟨.queued, .start⟩]⟩ :=
    Relation.ReflTransGen.tail h0
      (Step.acquire _ 0 ⟨.queued, .start⟩ rfl rfl (by decide))
  have h2 : Reachable (initSys 2 3)
      ⟨1, [⟨.running, .working⟩, ⟨.queued, .start⟩, ⟨.queued, .start⟩]⟩ :=
    Relation.ReflTransGen.tail h1
      (Step.setRunning _ 0 ⟨.queued, .acquired⟩ rfl rfl)
  have h3 : Reachable (initSys 2 3)
      ⟨1, [⟨.running, .raised⟩, ⟨.queued, .start⟩, ⟨.queued, .start⟩]⟩ :=
    Relation.ReflTransGen.tail h2
      (Step.raiseExc _ 0 ⟨.running, .working⟩ rfl rfl)
  have h4 : Reachable (initSys 2 3)
      ⟨2, [⟨.running, .released⟩, ⟨.queued, .start⟩, ⟨.queued, .start⟩]⟩ :=
    Relation.ReflTransGen.tail h3
      (Step.releaseExc _ 0 ⟨.running, .raised⟩ rfl rfl)
  have h5 : Reachable (initSys 2 3)
      ⟨1, [⟨.running, .released⟩, ⟨.queued, .acquired⟩, ⟨.queued, .start⟩]⟩ :=
    Relation.ReflTransGen.tail h4
      (Step.acquire _ 1 ⟨.queued, .start⟩ rfl rfl (by decide))
  have h6 : Reachable (initSys 2 3)
      ⟨1, [⟨.running, .released⟩, ⟨.running, .working⟩, ⟨.queued, .start⟩]⟩ :=
    Relation.ReflTransGen.tail h5
      (Step.setRunning _ 1 ⟨.queued, .acquired⟩ rfl rfl)
  have h7 : Reachable (initSys 2 3)
      ⟨0, [⟨.running, .released⟩, ⟨.running, .working⟩, ⟨.queued, .acquired⟩]⟩ :=
    Relation.ReflTransGen.tail h6
      (Step.acquire _ 2 ⟨.queued, .start⟩ rfl rfl (by decide))
  have h8 : Reachable (initSys 2 3)
      ⟨0, [⟨.running, .released⟩, ⟨.running, .working⟩, ⟨.running, .working⟩]⟩ :=
    Relation.ReflTransGen.tail h7
      (Step.setRunning _ 2 ⟨.queued, .acquired⟩ rfl rfl)
  exact absurd (hall _ h8) (by decide)

/-- The status of task `i` as a poller observes it. -/
def statusOf (s : Sys) (i : ℕ) : St :=
  ((s.workers[i]?).getD ⟨.queued, .start⟩).status

/-- The status transitions the claim allows: stutter, `queued → running`,
`running → {succeeded, failed}`, and the synchronous `queued → failed`. -/
def allowedTrans (a b : St) : Prop :=
  a = b ∨ (a = .queued ∧ b = .running)
    ∨ (a = .running ∧ (b = .succeeded ∨ b = .failed))
    ∨ (a = .queued ∧ b = .failed)

/-- C2: every task record is created `queued`; along every step from a
reachable state, each record's status either stays put or takes one of the
allowed transitions `queued → running`, `running → succeeded`,
`running → failed`, `queued → failed` (synchronous pre-validation only); and
no step changes a record whose status is terminal. -/
theorem status_transitions_monotone (cap n : ℕ) :
    (∀ i, statusOf (initSys cap n) i = .queued)
    ∧ (∀ s s2, Reachable (initSys cap n) s → Step s s2 →
        ∀ i, allowedTrans (statusOf s i) (statusOf s2 i))
    ∧ (∀ s s2, Reachable (initSys cap n) s → Step s s2 → ∀ i,
        (statusOf s i = .succeeded ∨ statusOf s i = .failed) →
        statusOf s2 i = statusOf s i) := by
  have hpart2 : ∀ s s2, Reachable (initSys cap n) s → Step s s2 →
      ∀ i, allowedTrans (statusOf s i) (statusOf s2 i) := by
    intro s s2 hreach hstep i
    have hps := (inv_reachable cap n s hreach).2
    cases hstep with
    | acquire j w hw hpc hsemgt =>
      by_cases hij : j = i
      · subst hij
        have hlen : j < s.workers.length := (List.getElem?_eq_some_iff.mp hw).1
        left
        simp [statusOf, List.getElem?_set_self hlen, hw]
      · left
        simp [statusOf, List.getElem?_set_ne hij]
    | setRunning j w hw hpc =>
      by_cases hij : j = i
      · subst hij
        have hlen : j < s.workers.length := (List.getElem?_eq_some_iff.mp hw).1
        obtain ⟨wst, wpc⟩ := w
        simp only [Worker.pc] at hpc
        subst hpc
        have hok : pcStOk ⟨wst, .acquired⟩ = true := hps _ (List.getElem?_mem hw)
        have hq : wst = .queued := by simpa [pcStOk] using hok
        subst hq
        right; left
        constructor
        · simp [statusOf, hw]
        · simp [statusOf, List.getElem?_set_self hlen]
      · left
        simp [statusOf, List.getElem?_set_ne hij]
    | finishOk j w hw hpc =>
      by_cases hij : j = i
      · subst hij
        have hlen : j < s.workers.length := (List.getElem?_eq_some_iff.mp hw).1
        obtain ⟨wst, wpc⟩ := w
        simp only [Worker.pc] at hpc
        subst hpc
        have hok : pcStOk ⟨wst, .working⟩ = true := hps _ (List.getElem?_mem hw)
        have hq : wst = .running := by simpa [pcStOk] using hok
        subst hq
        right; right; left
        refine ⟨by simp [statusOf, hw], Or.inl ?_⟩
        simp [statusOf, List.getElem?_set_self hlen]
      · left
        simp [statusOf, List.getElem?_set_ne hij]
    | finishFail j w hw hpc =>
      by_cases hij : j = i
      · subst hij
        have hlen : j < s.workers.length := (List.getElem?_eq_some_iff.mp hw).1
        obtain ⟨wst, wpc⟩ := w
        simp only [Worker.pc] at hpc
        subst hpc
        have hok : pcStOk ⟨wst, .working⟩ = true := hps _ (List.getElem?_mem hw)
        have hq : wst = .running := by simpa [pcStOk] using hok
        subst hq
        right; right; left
        refine ⟨by simp [statusOf, hw], Or.inr ?_⟩
        simp [statusOf, List.getElem?_set_self hlen]
      · left
        simp [statusOf, List.getElem?_set_ne hij]
    | raiseExc j w hw hpc =>
      by_cases hij : j = i
      · subst hij
        have hlen : j < s.workers.length := (List.getElem?_eq_some_iff.mp hw).1
        left
        simp [statusOf, List.getElem?_set_self hlen, hw]
      · left
        simp [statusOf, List.getElem?_set_ne hij]
    | release j w hw hpc =>
      by_cases hij : j = i
      · subst hij
        have hlen : j < s.workers.length := (List.getElem?_eq_some_iff.mp hw).1
        left
        simp [statusOf, List.getElem?_set_self hlen, hw]
      · left
        simp [statusOf, List.getElem?_set_ne hij]
    | releaseExc j w hw hpc =>
      by_cases hij : j = i
      · subst hij
        have hlen : j < s.workers.length := (List.getElem?_eq_some_iff.mp hw).1
        left
        simp [statusOf, List.getElem?_set_self hlen, hw]
      · left
        simp [statusOf, List.getElem?_set_ne hij]
    | setFailedExc j w hw hpc =>
      by_cases hij : j = i
      · subst hij
        have hlen : j < s.workers.length := (List.getElem?_eq_some_iff.mp hw).1
        obtain ⟨wst, wpc⟩ := w
        simp only [Worker.pc] at hpc
        subst hpc
        have hok : pcStOk ⟨wst, .released⟩ = true := hps _ (List.getElem?_mem hw)
        have hq : wst = .running := by simpa [pcStOk] using hok
        subst hq
        right; right; left
        refine ⟨by simp [statusOf, hw], Or.inr ?_⟩
        simp [statusOf, List.getElem?_set_self hlen]
      · left
        simp [statusOf, List.getElem?_set_ne hij]
    | syncFail j w hw hpc =>
      by_cases hij : j = i
      · subst hij
        have hlen : j < s.workers.length := (List.getElem?_eq_some_iff.mp hw).1
        obtain ⟨wst, wpc⟩ := w
        simp only [Worker.pc] at hpc
        subst hpc
        have hok : pcStOk ⟨wst, .start⟩ = true := hps _ (List.getElem?_mem hw)
        have hq : wst = .queued := by simpa [pcStOk] using hok
        subst hq
        right; right; right
        refine ⟨by simp [statusOf, hw], ?_⟩
        simp [statusOf, List.getElem?_set_self hlen]
      · left
        simp [statusOf, List.getElem?_set_ne hij]
  refine ⟨?_, hpart2, ?_⟩
  · intro i
    simp [statusOf, initSys, List.getElem?_replicate]
    split <;> rfl
  · intro s s2 hreach hstep i hterm
    rcases hpart2 s s2 hreach hstep i with heq | ⟨ha, hb⟩ | ⟨ha, hb⟩ | ⟨ha, hb⟩
    · exact heq.symm
    · rcases hterm with ht | ht <;> rw [ht] at ha <;> cases ha
    · rcases hterm with ht | ht <;> rw [ht] at ha <;> cases ha
    · rcases hterm with ht | ht <;> rw [ht] at ha <;> cases ha

/-- Witness for C2: the initial record is `queued`, and the synchronous-fail
step out of the initial state takes an allowed transition. -/
theorem status_transitions_monotone_witness :
    statusOf (initSys 2 3) 0 = .queued
      ∧ Reachable (initSys 2 3) (initSys 2 3)
      ∧ Step (initSys 2 3)
          ⟨(initSys 2 3).sem, (initSys 2 3).workers.set 0 ⟨.failed, .done⟩⟩
      ∧ allowedTrans (statusOf (initSys 2 3) 0)
          (statusOf ⟨(initSys 2 3).sem,
            (initSys 2 3).workers.set 0 ⟨.failed, .done⟩⟩ 0) :=
  ⟨(status_transitions_monotone 2 3).1 0,
   Relation.ReflTransGen.refl,
   Step.syncFail _ 0 ⟨.queued, .start⟩ rfl rfl,
   (status_transitions_monotone 2 3).2.1 _ _ Relation.ReflTransGen.refl
     (Step.syncFail _ 0 ⟨.queued, .start⟩ rfl rfl) 0⟩

end Sched
